import Mathlib

/-!
Verification development for the homelab-setup repository.

The definitions below are a shallow embedding of the Go sources:

* `internal/config/config.go` — the persistent key/value configuration
  store (`Config.Load`, `Config.Save`, `Config.Get`, `Config.GetOrDefault`,
  `Config.Set`), with the file-system level atomic-write pattern embedded
  as `SaveFS`.
* `internal/troubleshoot/troubleshoot.go` — the network diagnostics
  engine (`sendPing`, `checkDNS`, `checkPortScanning`).
* `internal/steps/directory.go` and the preflight step — step entry
  points guarded by completion markers (`RunDirectorySetup`,
  `RunPreflightChecks`).

Go strings are embedded as `List Char` (named `Str`); Go maps as
association lists with function-update semantics; machine durations as
natural numbers of nanoseconds; `float64` arithmetic on packet-loss
percentages as exact rational arithmetic (the formula structure, not
IEEE rounding, is the subject of the claims).  Whitespace trimming is
modelled on the ASCII whitespace characters, which is what the
configuration files in this repository contain.

The marker-store implementation (`IsComplete`, `MarkComplete`,
`ensureCanonicalMarker`) is called from the step sources but its own
source file is not part of the sources at hand; those definitions are
modelled from the specification and are marked as such.
-/

/-- Go strings, embedded as lists of characters. -/
abbrev Str := List Char

/-- ASCII whitespace, as recognised by strings.TrimSpace on the ASCII
range (space, tab, newline, vertical tab, form feed, carriage return). -/
def isSpace (c : Char) : Bool :=
  c = ' ' || c = '\t' || c = '\n' || c = '\x0b' || c = '\x0c' || c = '\r'

/-- Embeds strings.TrimSpace: drop whitespace from both ends. -/
def trim (l : Str) : Str :=
  ((l.dropWhile isSpace).reverse.dropWhile isSpace).reverse

/-- True when the line begins with the comment character. -/
def startsWithHash : Str → Bool
  | [] => false
  | c :: _ => c = '#'

/-- True when the string contains the given character. -/
def hasChar (l : Str) (c : Char) : Bool := l.any (fun d => d = c)

/-- True when the string contains no newline. -/
def noNL (l : Str) : Bool := !(hasChar l '\n')

/-- Embeds the line splitting of bufio.Scanner: split the file content at
every newline.  A trailing newline yields a final empty line, which the
loader skips as blank, matching the scanner not emitting a final empty
token. -/
def splitLines : Str → List Str
  | [] => [[]]
  | c :: rest =>
    if c = '\n' then [] :: splitLines rest
    else
      match splitLines rest with
      | [] => [[c]]
      | l :: ls => (c :: l) :: ls

/-- Embeds strings.SplitN(line, sep, 2) for a one-character separator:
the part before the first occurrence, and the part after it when the
separator occurs at all. -/
def splitN2 : Str → Str × Option Str
  | [] => ([], none)
  | c :: rest =>
    if c = '=' then ([], some rest)
    else
      match splitN2 rest with
      | (a, r) => (c :: a, r)

/-- Go map lookup on the association-list embedding of map[string]string. -/
def lookupKV : List (Str × Str) → Str → Option Str
  | [], _ => none
  | (a, b) :: rest, k => if a = k then some b else lookupKV rest k

/-- Go map update m[k] = v on the association-list embedding: the pair
for k replaces any previous pair for k. -/
def setKV (m : List (Str × Str)) (k v : Str) : List (Str × Str) :=
  (k, v) :: m.filter (fun p => decide (p.1 ≠ k))

/-- Embeds one iteration of the scanning loop of Config.Load: trim the
line, skip blanks and comments, split at the first equals sign, and
store the trimmed key and value when the split yields two parts. -/
def processLine (m : List (Str × Str)) (raw : Str) : List (Str × Str) :=
  let line := trim raw
  if line = [] then m
  else if startsWithHash line then m
  else
    match splitN2 line with
    | (_, none) => m
    | (k, some v) => setKV m (trim k) (trim v)

/-- Embeds the scanning loop of Config.Load over all lines of the file,
merging into the data already in memory. -/
def loadLinesInto (m : List (Str × Str)) (content : Str) : List (Str × Str) :=
  (splitLines content).foldl processLine m

/-- First header line written by Config.Save. -/
def headerLine1 : Str := "# UBlue uCore Homelab Setup Configuration".toList

/-- Generation-stamp header written by Config.Save, without the
timestamp itself. -/
def headerGen : Str := "# Generated: ".toList

/-- Embeds the key-value writing loop of Config.Save: one KEY=value line
per pair. -/
def renderPairs : List (Str × Str) → Str
  | [] => []
  | (k, v) :: rest => k ++ '=' :: v ++ '\n' :: renderPairs rest

/-- Embeds the full file content written by Config.Save: two header
comment lines (the second carrying the timestamp ts), a blank line, then
all key-value pairs. -/
def renderConfig (ts : Str) (l : List (Str × Str)) : Str :=
  headerLine1 ++ ('\n' :: (headerGen ++ (ts ++ ('\n' :: ('\n' :: renderPairs l)))))

/-- True when the first character, if any, is not whitespace. -/
def headNoSpace : Str → Bool
  | [] => true
  | c :: _ => !isSpace c

/-- True when trimming the string leaves it unchanged: no leading and no
trailing whitespace. -/
def trimStable (l : Str) : Bool := headNoSpace l && headNoSpace l.reverse

/-- A key that survives the KEY=value round trip: no surrounding
whitespace, no newline, no equals sign, and not starting with the
comment character. -/
def wfKey (k : Str) : Bool :=
  trimStable k && noNL k && !(hasChar k '=') && !startsWithHash k

/-- A value that survives the KEY=value round trip: no surrounding
whitespace and no newline. -/
def wfVal (v : Str) : Bool := trimStable v && noNL v

/-- Error kinds surfaced by the configuration store. -/
inductive CfgErr where
  | loadFailed
  | notFound
  | ioFailed
deriving DecidableEq

/-- Decidable equality of fallible results, for concrete evaluation. -/
instance {e a : Type} [DecidableEq e] [DecidableEq a] :
    DecidableEq (Except e a) := fun x y =>
  match x, y with
  | .ok u, .ok w =>
    if h : u = w then .isTrue (by rw [h]) else .isFalse (by simp [h])
  | .error u, .error w =>
    if h : u = w then .isTrue (by rw [h]) else .isFalse (by simp [h])
  | .ok _, .error _ => .isFalse (by simp)
  | .error _, .ok _ => .isFalse (by simp)

/-- The Config struct of internal/config/config.go, for a fixed file
path: the on-disk content of that path (none when the file is absent),
the in-memory data map, and the loaded flag. -/
structure Config where
  file : Option Str
  data : List (Str × Str)
  loaded : Bool
deriving DecidableEq

/-- The config.New constructor: empty map, not yet loaded, over whatever
the backing file currently holds. -/
def Config.new (file : Option Str) : Config :=
  { file := file, data := [], loaded := false }

/-- Embeds Config.Load.  A missing file just sets the loaded flag; an
open failure (injected through openFail) surfaces an error and leaves
the store untouched; otherwise every line is merged into the in-memory
map and the loaded flag is set. -/
def Config.Load (openFail : Bool) (c : Config) : Config × Option CfgErr :=
  match c.file with
  | none => ({ c with loaded := true }, none)
  | some content =>
    if openFail then (c, some .loadFailed)
    else ({ c with data := loadLinesInto c.data content, loaded := true }, none)

/-- Embeds Config.ensureLoaded: load from disk once before read
operations. -/
def Config.ensureLoaded (openFail : Bool) (c : Config) : Config × Option CfgErr :=
  if c.loaded then (c, none) else Config.Load openFail c

/-- Embeds Config.Get: implicit load, then map lookup; a missing key is
a notFound error. -/
def Config.Get (openFail : Bool) (k : Str) (c : Config) : Config × Except CfgErr Str :=
  match Config.ensureLoaded openFail c with
  | (c', some _) => (c', .error .loadFailed)
  | (c', none) =>
    match lookupKV c'.data k with
    | none => (c', .error .notFound)
    | some v => (c', .ok v)

/-- Embeds Config.GetOrDefault: implicit load, then map lookup; the
default is returned on a load failure and on a missing key. -/
def Config.GetOrDefault (openFail : Bool) (k d : Str) (c : Config) : Config × Str :=
  match Config.ensureLoaded openFail c with
  | (c', some _) => (c', d)
  | (c', none) =>
    match lookupKV c'.data k with
    | some v => (c', v)
    | none => (c', d)

/-- Embeds the mutate-then-Save tail of Config.Set: update the map, then
persist the whole map; on a save failure (injected through saveFail) the
in-memory map is already updated but the file is untouched. -/
def Config.setAndSave (saveFail : Bool) (ts k v : Str) (c : Config) : Config × Option CfgErr :=
  let d := setKV c.data k v
  if saveFail then ({ c with data := d }, some .ioFailed)
  else ({ c with data := d, file := some (renderConfig ts d) }, none)

/-- Embeds Config.Set: load the existing configuration first when not
yet loaded, then merge the new value and persist the entire map. -/
def Config.Set (openFail saveFail : Bool) (ts k v : Str) (c : Config) : Config × Option CfgErr :=
  if c.loaded then Config.setAndSave saveFail ts k v c
  else
    match Config.Load openFail c with
    | (_, some _) => (c, some .loadFailed)
    | (c', none) => Config.setAndSave saveFail ts k v c'

/-- A file system, as a map from path to content; none means the path is
absent. -/
abbrev FileMap := Str → Option Str

/-- Point update of a file system. -/
def updateFM (fs : FileMap) (p : Str) (content : Option Str) : FileMap :=
  fun q => if q = p then content else fs q

/-- The operation of Config.Save at which an injected failure strikes;
ok means every operation succeeds. -/
inductive SaveFail where
  | mkdirAll
  | createTemp
  | chmod
  | sync
  | close
  | rename
  | ok
deriving DecidableEq

/-- Embeds Config.Save at the file-system level, with failure injection.
The Go code creates a fresh temporary file in the target directory,
chmods it, writes the header and all pairs into it, syncs, closes, and
renames it over the target; a deferred remove deletes the temporary file
on every early exit (and is a harmless no-op after a successful rename).
Write errors to the temporary file are not checked in the source, so the
failure points are the seven checked operations. -/
def SaveFS (fs : FileMap) (target tmp ts : Str) (data : List (Str × Str)) :
    SaveFail → FileMap × Bool
  | .mkdirAll => (fs, false)
  | .createTemp => (fs, false)
  | .chmod => (updateFM (updateFM fs tmp (some [])) tmp none, false)
  | .sync => (updateFM (updateFM fs tmp (some (renderConfig ts data))) tmp none, false)
  | .close => (updateFM (updateFM fs tmp (some (renderConfig ts data))) tmp none, false)
  | .rename => (updateFM (updateFM fs tmp (some (renderConfig ts data))) tmp none, false)
  | .ok =>
    (updateFM (updateFM (updateFM fs tmp (some (renderConfig ts data)))
      target (some (renderConfig ts data))) tmp none, true)

/-- Modelled from the spec: the marker-store implementation behind
IsComplete is not among the sources at hand (only its callers are); the
spec describes a set of named flags whose presence is the sole source of
truth for completion, so the store is a set of names and IsComplete is
membership. -/
def Markers.IsComplete (ms : List Str) (name : Str) : Bool := decide (name ∈ ms)

/-- Modelled from the spec: MarkComplete is idempotent marker creation;
creating an already-present marker is a no-op success. -/
def Markers.MarkComplete (ms : List Str) (name : Str) : List Str :=
  if name ∈ ms then ms else name :: ms

/-- Modelled from the spec: ensureCanonicalMarker returns true when the
canonical marker exists; otherwise, when the legacy marker exists, it
creates the canonical marker and returns true; otherwise it returns
false. -/
def Markers.ensureCanonicalMarker (ms : List Str) (canonical legacy : Str) : List Str × Bool :=
  if canonical ∈ ms then (ms, true)
  else if legacy ∈ ms then (Markers.MarkComplete ms canonical, true)
  else (ms, false)

/-- Marker name of the preflight step. -/
def preflightCompletionMarker : Str := "preflight-complete".toList

/-- Marker name of the directory step. -/
def directoryCompletionMarker : Str := "directory-setup-complete".toList

/-- Legacy marker name migrated by the directory step. -/
def legacyDirectoryMarker : Str := "directories-created".toList

/-- Configuration key consulted by the preflight NFS check. -/
def nfsServerKey : Str := "NFS_SERVER".toList

/-- The durable state a step acts on (markers and configuration) plus a
log of the external actions it performed, used to express that a skipped
step has no side effects. -/
structure StepWorld where
  markers : List Str
  cfg : Config
  effects : List Str
deriving DecidableEq

/-- Outcomes of the individual preflight checks; some message means the
check failed with that message.  The checks themselves shell out to the
system and are inputs of the embedding. -/
structure CheckResults where
  rpmOstree : Option Str
  requiredPackages : Option Str
  containerRuntime : Option Str
  sudoAccess : Option Str
  networkConnectivity : Option Str
  nfsServer : Option Str
deriving DecidableEq

/-- Message reported by a step that finds its marker already set. -/
def msgAlreadyComplete : Str := "already complete (marker found)".toList

/-- Message naming the marker an operator can remove to re-run a step. -/
def msgRemoveMarker : Str := "to re-run, remove the completion marker".toList

/-- Message reported when every preflight check passed. -/
def msgPreflightPassed : Str := "all pre-flight checks PASSED".toList

/-- Message reported when some preflight check failed. -/
def msgPreflightFailed : Str := "preflight checks failed".toList

/-- Message reported when the directory structure was created. -/
def msgDirectoryDone : Str := "directory structure created successfully".toList

/-- Embeds RunPreflightChecks: when the completion marker is set, report
and return success without running any check; otherwise run the five
mandatory checks (recording them in the effect log), run the NFS check
only when an NFS server is configured (its failure is a warning, not an
error), and on an error-free run record the completion marker. -/
def RunPreflightChecks (cr : CheckResults) (openFail : Bool) (w : StepWorld) :
    StepWorld × List Str × Option Str :=
  if Markers.IsComplete w.markers preflightCompletionMarker then
    (w, [msgAlreadyComplete, msgRemoveMarker], none)
  else
    let errs := [cr.rpmOstree, cr.requiredPackages, cr.containerRuntime,
      cr.sudoAccess, cr.networkConnectivity].filterMap id
    let nfs := Config.GetOrDefault openFail nfsServerKey [] w.cfg
    let checks := ["check-rpm-ostree".toList, "check-required-packages".toList,
      "check-container-runtime".toList, "check-sudo-access".toList,
      "check-network-connectivity".toList]
    let checks := if nfs.2 = [] then checks else checks ++ ["check-nfs-server".toList]
    let w' := { w with cfg := nfs.1, effects := w.effects ++ checks }
    if errs = [] then
      ({ w' with markers := Markers.MarkComplete w'.markers preflightCompletionMarker },
        [msgPreflightPassed], none)
    else (w', [msgPreflightFailed], some msgPreflightFailed)

/-- Embeds RunDirectorySetup: resolve the canonical marker (migrating
the legacy name); when already complete, report and return success
without running the body; otherwise run the body (directory creation,
prompts, verification — abstracted as a state transformer, since it
shells out) and on success record the completion marker. -/
def RunDirectorySetup (body : StepWorld → StepWorld × Option Str) (w : StepWorld) :
    StepWorld × List Str × Option Str :=
  let r := Markers.ensureCanonicalMarker w.markers directoryCompletionMarker legacyDirectoryMarker
  if r.2 then
    ({ w with markers := r.1 }, [msgAlreadyComplete, msgRemoveMarker], none)
  else
    match body { w with markers := r.1 } with
    | (w', some e) => (w', [], some e)
    | (w', none) =>
      ({ w' with markers := Markers.MarkComplete w'.markers directoryCompletionMarker },
        [msgDirectoryDone], none)

/-- What one iteration of the sendPing loop observes on the wire: a
failure of one of its per-iteration operations, no reply before the read
deadline, an unparsable packet, or a parsed reply carrying a type flag
(isEcho), identifier, sequence number and a round-trip time in
nanoseconds. -/
inductive PingEvent where
  | marshalErr
  | writeErr
  | deadlineErr
  | readErr
  | parseErr
  | reply (isEcho : Bool) (id seq rtt : Nat)
deriving DecidableEq

/-- Embeds the matching test of sendPing iteration i: a reply is counted
only when it is an echo reply whose identifier equals the process
identifier and whose sequence number equals i; on a match its round-trip
time is recorded. -/
def matchRtt (pid i : Nat) : PingEvent → Option Nat
  | .reply true id seq rtt => if id = pid ∧ seq = i then some rtt else none
  | _ => none

/-- Embeds the latency list built by the sendPing loop: the round-trip
times of the matched replies, one loop iteration per sent request. -/
def pingLatencies (pid count : Nat) (events : Nat → PingEvent) : List Nat :=
  (List.range count).filterMap (fun i => matchRtt pid i (events i))

/-- The unstable-classification latency threshold, 100 ms in
nanoseconds. -/
def latencyThreshold : Nat := 100000000

/-- The result struct of sendPing: packet-loss percentage, average
round-trip latency in nanoseconds, and the instability classification. -/
structure PingResult where
  packetLoss : ℚ
  avgLatency : Nat
  unstable : Bool
deriving DecidableEq

/-- Embeds the tail of sendPing: loss is (sent - received) / sent × 100,
the average latency is the total matched latency divided by the number
of matched replies (zero when none matched; Go duration division is
integer division), and the run is unstable when loss is positive or the
average latency exceeds the threshold. -/
def sendPingCore (pid count : Nat) (events : Nat → PingEvent) : PingResult :=
  let lats := pingLatencies pid count events
  let received := lats.length
  let loss : ℚ := ((count : ℚ) - (received : ℚ)) / (count : ℚ) * 100
  let avg : Nat := if received = 0 then 0 else lats.sum / received
  { packetLoss := loss
    avgLatency := avg
    unstable := decide (0 < loss) || decide (latencyThreshold < avg) }

/-- The two ways sendPing can fail to attempt the probe at all: the raw
ICMP socket cannot be opened (a privilege error, labeled as such), or
the target address does not resolve. -/
inductive PingErr where
  | privilege
  | resolve
deriving DecidableEq

/-- Embeds sendPing end to end: opening the raw socket can fail (a
privilege error), resolving the target can fail (a resolve error), and
otherwise the probe loop always produces a structured result. -/
def sendPing (socketOk resolveOk : Bool) (pid count : Nat) (events : Nat → PingEvent) :
    Except PingErr PingResult :=
  if socketOk = false then .error .privilege
  else if resolveOk = false then .error .resolve
  else .ok (sendPingCore pid count events)

/-- Replace the observation of one loop iteration, leaving the others
unchanged; used to state that an unmatched reply counts exactly as much
as no reply at all. -/
def updateEvents (events : Nat → PingEvent) (i : Nat) (e : PingEvent) : Nat → PingEvent :=
  fun j => if j = i then e else events j

/-- The environment checkDNS runs against: the outcome of system
hostname resolution (error, addresses, latency), the readability of the
resolver configuration, the reachability of the public resolver, and the
outcome of the lookup routed through the public resolver. -/
structure DnsEnv where
  sysErr : Option Str
  sysIps : List Str
  sysLatency : Nat
  resolvConf : Option Str
  dialPublicOk : Bool
  publicErr : Option Str
  publicIps : List Str
deriving DecidableEq

/-- The reportable events of checkDNS, one per ui call that carries a
diagnostic outcome, in the order the code emits them. -/
inductive DnsEvent where
  | resolvedOk (ip : Str) (latency : Nat)
  | resolutionFailed
  | tier1ResolvConf (content : Option Str)
  | tier2DialFail
  | tier2DialOk
  | tier2LookupOk (ip : Str)
  | tier2LookupFail
deriving DecidableEq

/-- Embeds checkDNS: when system resolution yields no error and at least
one address, report success with the first address and the resolution
latency and return; otherwise report the failure, show the resolver
configuration (tier 1), test reachability of the public resolver
(tier 2), and when reachable attempt the lookup routed through it. -/
def checkDNS (env : DnsEnv) : List DnsEvent :=
  if env.sysErr = none ∧ env.sysIps ≠ [] then
    [.resolvedOk (env.sysIps.headD []) env.sysLatency]
  else
    .resolutionFailed :: .tier1ResolvConf env.resolvConf ::
      (if env.dialPublicOk = false then [.tier2DialFail]
       else .tier2DialOk ::
         (if env.publicErr = none ∧ env.publicIps ≠ [] then
            [.tier2LookupOk (env.publicIps.headD [])]
          else [.tier2LookupFail]))

/-- The fallback levels of the tiered DNS diagnostic, as the spec names
them. -/
inductive DnsTier where
  | direct
  | gateway
  | localResolver
deriving DecidableEq

/-- A second definition following the words of the spec rather than the
code: the spec assigns each diagnostic narrative a tier identifier
indicating which level produced the diagnosis; the code reports the same
information through which terminal event it emits, so this maps the
event stream to the tier of its first conclusive event. -/
def dnsReportedTier : List DnsEvent → Option DnsTier
  | [] => none
  | .resolvedOk _ _ :: _ => some .direct
  | .tier2DialFail :: _ => some .gateway
  | .tier2DialOk :: _ => some .localResolver
  | _ :: rest => dnsReportedTier rest

/-- The two indistinguishable-by-design failure modes of a TCP dial. -/
inductive DialErr where
  | refused
  | timeout
deriving DecidableEq

/-- Target host of the port scan. -/
def VPSIP : Str := "64.23.212.68".toList

/-- The fixed (port, service-label) scan list of checkPortScanning. -/
def scanPorts : List (Str × Str) :=
  [("80".toList, "HTTP (NPM)".toList),
   ("443".toList, "HTTPS (NPM)".toList),
   ("9000".toList, "Portainer".toList),
   ("9443".toList, "Portainer (SSL)".toList)]

/-- One reported line of the port scan: the service label, the port, and
whether it was reported OPEN (true) or CLOSED/FILTERED (false). -/
structure ScanEntry where
  service : Str
  port : Str
  isOpen : Bool
deriving DecidableEq

/-- True when the dial attempt succeeded. -/
def dialOk (r : Except DialErr Unit) : Bool :=
  match r with
  | .ok _ => true
  | .error _ => false

/-- Embeds checkPortScanning: every pair of the fixed scan list is tried
in sequence against the target host; a successful dial is reported OPEN
and its connection closed (the second component collects the ports whose
connections were closed), and any dial error is reported CLOSED/FILTERED;
no outcome stops the scan. -/
def checkPortScanning (dial : Str → Str → Except DialErr Unit) :
    List ScanEntry × List Str :=
  (scanPorts.map (fun p =>
      { service := p.2, port := p.1, isOpen := dialOk (dial VPSIP p.1) }),
   (scanPorts.filter (fun p => dialOk (dial VPSIP p.1))).map (fun p => p.1))

/-! ## Theorems -/

/-- C1: Config.Save writes the full key/value set to a fresh temporary
file in the target directory, syncs, closes and renames it over the
target, and never writes the target in place: whichever checked
operation fails before the rename completes, the whole file system — in
particular the previously existing config file — is left byte-for-byte
unchanged; on success the target holds exactly the rendered key/value
set, the temporary name is gone, and no other path changed. -/
theorem save_atomic_never_corrupts (fs : FileMap) (target tmp ts : Str)
    (data : List (Str × Str)) (fail : SaveFail)
    (hne : tmp ≠ target) (hfresh : fs tmp = none) :
    (fail ≠ .ok → (SaveFS fs target tmp ts data fail).2 = false ∧
      ∀ p, (SaveFS fs target tmp ts data fail).1 p = fs p) ∧
    (fail = .ok → (SaveFS fs target tmp ts data fail).2 = true ∧
      (SaveFS fs target tmp ts data fail).1 target = some (renderConfig ts data) ∧
      (SaveFS fs target tmp ts data fail).1 tmp = none ∧
      ∀ p, p ≠ target → (SaveFS fs target tmp ts data fail).1 p = fs p) := by
  constructor
  · intro hf
    cases fail with
    | ok => exact absurd rfl hf
    | mkdirAll => exact ⟨rfl, fun p => rfl⟩
    | createTemp => exact ⟨rfl, fun p => rfl⟩
    | chmod =>
      refine ⟨rfl, fun p => ?_⟩
      by_cases hp : p = tmp <;> simp [SaveFS, updateFM, hp, hfresh]
    | sync =>
      refine ⟨rfl, fun p => ?_⟩
      by_cases hp : p = tmp <;> simp [SaveFS, updateFM, hp, hfresh]
    | close =>
      refine ⟨rfl, fun p => ?_⟩
      by_cases hp : p = tmp <;> simp [SaveFS, updateFM, hp, hfresh]
    | rename =>
      refine ⟨rfl, fun p => ?_⟩
      by_cases hp : p = tmp <;> simp [SaveFS, updateFM, hp, hfresh]
  · intro hf
    subst hf
    refine ⟨rfl, ?_, ?_, ?_⟩
    · simp [SaveFS, updateFM, hne, Ne.symm hne]
    · simp [SaveFS, updateFM]
    · intro p hp
      by_cases hpt : p = tmp <;> simp [SaveFS, updateFM, hp, hpt, hfresh]

/-- Witness for C1 at a concrete file system, target, temporary name and
failure point. -/
theorem save_atomic_never_corrupts_witness :
    (['t'] : Str) ≠ ['c'] ∧ ((fun _ => none : FileMap) ['t'] = none) ∧
    (SaveFS (fun _ => none) ['c'] ['t'] [] [(['K'], ['V'])] .rename).2 = false ∧
    (SaveFS (fun _ => none) ['c'] ['t'] [] [(['K'], ['V'])] .rename).1 ['c'] = none := by
  refine ⟨by decide, rfl, ?_, ?_⟩
  · exact ((save_atomic_never_corrupts (fun _ => none) ['c'] ['t'] [] [(['K'], ['V'])]
      .rename (by decide) rfl).1 (by decide)).1
  · exact ((save_atomic_never_corrupts (fun _ => none) ['c'] ['t'] [] [(['K'], ['V'])]
      .rename (by decide) rfl).1 (by decide)).2 ['c']

/-- The latency list never outgrows the number of loop iterations. -/
theorem pingLatencies_length_le (pid count : Nat) (events : Nat → PingEvent) :
    (pingLatencies pid count events).length ≤ count := by
  have h := List.length_filterMap_le (fun i => matchRtt pid i (events i)) (List.range count)
  simpa [pingLatencies] using h

/-- C4: for a ping run of N sent echo requests with N positive, the
number of matched replies lies between 0 and N, the packet loss is
exactly (N - matched)/N × 100, the average latency is the mean (integer
division of nanosecond durations) over matched replies only and zero
when none matched, a reply whose identifier or sequence number does not
match contributes exactly as much as no reply at all, and the run is
classified unstable exactly when loss is positive or the average latency
exceeds 100 ms. -/
theorem ping_loss_latency_bounds (pid count : Nat) (events : Nat → PingEvent)
    (_hc : 0 < count) :
    (pingLatencies pid count events).length ≤ count ∧
    (sendPingCore pid count events).packetLoss =
      ((count : ℚ) - ((pingLatencies pid count events).length : ℚ)) / (count : ℚ) * 100 ∧
    ((pingLatencies pid count events).length = 0 →
      (sendPingCore pid count events).avgLatency = 0) ∧
    (0 < (pingLatencies pid count events).length →
      (sendPingCore pid count events).avgLatency =
        (pingLatencies pid count events).sum / (pingLatencies pid count events).length) ∧
    ((sendPingCore pid count events).unstable = true ↔
      0 < (sendPingCore pid count events).packetLoss ∨
        latencyThreshold < (sendPingCore pid count events).avgLatency) ∧
    (∀ i, i < count → matchRtt pid i (events i) = none →
      sendPingCore pid count (updateEvents events i .readErr) =
        sendPingCore pid count events) := by
  refine ⟨pingLatencies_length_le pid count events, rfl, ?_, ?_, ?_, ?_⟩
  · intro h
    simp [sendPingCore, h]
  · intro h
    simp [sendPingCore, Nat.pos_iff_ne_zero.mp h]
  · simp [sendPingCore]
  · intro i hi hnone
    have hlat : pingLatencies pid count (updateEvents events i .readErr) =
        pingLatencies pid count events := by
      unfold pingLatencies
      apply List.filterMap_congr
      intro j hj
      by_cases hji : j = i
      · subst hji
        have hu : updateEvents events j .readErr j = .readErr := by
          simp [updateEvents]
        rw [hu, hnone]
        rfl
      · simp [updateEvents, hji]
    simp [sendPingCore, hlat]

/-- Witness for C4 at a concrete run: five requests, two of which get a
matching reply, one a reply with the wrong sequence number. -/
theorem ping_loss_latency_bounds_witness :
    (0 < 5 ∧
      (pingLatencies 7 5 (fun i =>
        if i = 0 then .reply true 7 0 40000000
        else if i = 1 then .reply true 7 5 40000000
        else if i = 2 then .reply true 7 2 60000000
        else .readErr)).length ≤ 5) ∧
    (sendPingCore 7 5 (fun i =>
        if i = 0 then .reply true 7 0 40000000
        else if i = 1 then .reply true 7 5 40000000
        else if i = 2 then .reply true 7 2 60000000
        else .readErr)).packetLoss = ((5 : ℚ) - (2 : ℚ)) / (5 : ℚ) * 100 := by
  constructor
  · exact ⟨by decide,
      (ping_loss_latency_bounds 7 5 _ (by decide)).1⟩
  · have h := (ping_loss_latency_bounds 7 5 (fun i =>
        if i = 0 then .reply true 7 0 40000000
        else if i = 1 then .reply true 7 5 40000000
        else if i = 2 then .reply true 7 2 60000000
        else .readErr) (by decide)).2.1
    rw [h]
    have hl : (pingLatencies 7 5 (fun i =>
        if i = 0 then .reply true 7 0 40000000
        else if i = 1 then .reply true 7 5 40000000
        else if i = 2 then .reply true 7 2 60000000
        else .readErr)).length = 2 := by decide
    rw [hl]
    norm_num

/-- C5: sendPing errors only when it cannot attempt the probe at all —
a socket-open failure is reported as the distinct privilege error, an
address-resolution failure as the resolve error — and when the probe
runs, even with every echo request unanswered, it returns a structured
result with 100% packet loss rather than an error. -/
theorem ping_error_only_when_unattemptable (socketOk resolveOk : Bool)
    (pid count : Nat) (events : Nat → PingEvent) :
    (socketOk = false →
      sendPing socketOk resolveOk pid count events = .error .privilege) ∧
    (socketOk = true → resolveOk = false →
      sendPing socketOk resolveOk pid count events = .error .resolve) ∧
    (socketOk = true → resolveOk = true →
      sendPing socketOk resolveOk pid count events =
        .ok (sendPingCore pid count events)) ∧
    (socketOk = true → resolveOk = true → 0 < count →
      (∀ i, i < count → matchRtt pid i (events i) = none) →
      sendPing socketOk resolveOk pid count events =
        .ok { packetLoss := 100, avgLatency := 0, unstable := true }) := by
  refine ⟨?_, ?_, ?_, ?_⟩
  · intro h; simp [sendPing, h]
  · intro h1 h2; simp [sendPing, h1, h2]
  · intro h1 h2; simp [sendPing, h1, h2]
  · intro h1 h2 hc hnone
    have hnil : pingLatencies pid count events = [] := by
      unfold pingLatencies
      rw [List.filterMap_eq_nil_iff]
      intro i hi
      exact hnone i (List.mem_range.mp hi)
    have hcount : ((count : ℚ)) ≠ 0 := by
      exact_mod_cast Nat.pos_iff_ne_zero.mp hc
    have hcore : sendPingCore pid count events =
        { packetLoss := 100, avgLatency := 0, unstable := true } := by
      unfold sendPingCore
      rw [hnil]
      simp only [List.length_nil, List.sum_nil, Nat.cast_zero, sub_zero, if_pos rfl]
      rw [div_self hcount, one_mul]
      simp [latencyThreshold]
    simp [sendPing, h1, h2, hcore]

/-- Witness for C5 at concrete inputs: a failed socket open, a failed
resolve, and a fully unanswered probe of three requests. -/
theorem ping_error_only_when_unattemptable_witness :
    sendPing false true 7 3 (fun _ => .readErr) = .error .privilege ∧
    sendPing true false 7 3 (fun _ => .readErr) = .error .resolve ∧
    sendPing true true 7 3 (fun _ => .readErr) =
      .ok { packetLoss := 100, avgLatency := 0, unstable := true } := by
  refine ⟨?_, ?_, ?_⟩
  · exact (ping_error_only_when_unattemptable false true 7 3 _).1 rfl
  · exact (ping_error_only_when_unattemptable true false 7 3 _).2.1 rfl rfl
  · exact (ping_error_only_when_unattemptable true true 7 3 _).2.2.2 rfl rfl
      (by decide) (fun i _ => rfl)

/-- C6: when ordinary system resolution succeeds (no error and at least
one address), checkDNS reports success with the first address and the
resolution latency and stops: the emitted narrative is exactly that one
event, the reported tier is direct, and the outcome is independent of
everything the fallback tiers would consult (resolver configuration,
public-resolver reachability, lookup routed through the public
resolver). -/
theorem dns_direct_short_circuit (env : DnsEnv)
    (herr : env.sysErr = none) (hips : env.sysIps ≠ []) :
    checkDNS env = [.resolvedOk (env.sysIps.headD []) env.sysLatency] ∧
    dnsReportedTier (checkDNS env) = some .direct ∧
    (∀ rc dp pe pi,
      checkDNS { env with resolvConf := rc
                          dialPublicOk := dp
                          publicErr := pe
                          publicIps := pi } = checkDNS env) := by
  have hmain : checkDNS env = [.resolvedOk (env.sysIps.headD []) env.sysLatency] := by
    simp [checkDNS, herr, hips]
  refine ⟨hmain, ?_, ?_⟩
  · rw [hmain]; rfl
  · intro rc dp pe pi
    rw [hmain]
    simp [checkDNS, herr, hips]

/-- Witness for C6 at a concrete environment in which system resolution
succeeds. -/
theorem dns_direct_short_circuit_witness :
    checkDNS { sysErr := none
               sysIps := ["142.250.64.78".toList]
               sysLatency := 12
               resolvConf := none
               dialPublicOk := false
               publicErr := none
               publicIps := [] } =
      [.resolvedOk "142.250.64.78".toList 12] ∧
    dnsReportedTier (checkDNS { sysErr := none
                                sysIps := ["142.250.64.78".toList]
                                sysLatency := 12
                                resolvConf := none
                                dialPublicOk := false
                                publicErr := none
                                publicIps := [] }) = some .direct := by
  have h := dns_direct_short_circuit
    { sysErr := none
      sysIps := ["142.250.64.78".toList]
      sysLatency := 12
      resolvConf := none
      dialPublicOk := false
      publicErr := none
      publicIps := [] } rfl (by decide)
  exact ⟨h.1, h.2.1⟩

/-- C7: the port scan tries every (port, service-label) pair of the
fixed list in sequence whatever the individual outcomes, reports a
successful dial as open (closing the connection) and any failed dial as
closed/filtered, raises no error, and deliberately cannot distinguish a
refused dial from a timed-out one: any two dial behaviours that succeed
on the same ports produce identical scans. -/
theorem port_scan_classification (dial : Str → Str → Except DialErr Unit) :
    (checkPortScanning dial).1 =
      scanPorts.map (fun p =>
        { service := p.2, port := p.1, isOpen := dialOk (dial VPSIP p.1) }) ∧
    ((checkPortScanning dial).1.map (fun e => (e.port, e.service)) =
      scanPorts.map (fun p => (p.1, p.2))) ∧
    (∀ e ∈ (checkPortScanning dial).1, e.isOpen = dialOk (dial VPSIP e.port)) ∧
    ((checkPortScanning dial).2 =
      (scanPorts.filter (fun p => dialOk (dial VPSIP p.1))).map (fun p => p.1)) ∧
    (∀ dial2, (∀ h pt, dialOk (dial h pt) = dialOk (dial2 h pt)) →
      checkPortScanning dial = checkPortScanning dial2) := by
  refine ⟨rfl, rfl, ?_, rfl, ?_⟩
  · intro e he
    simp only [checkPortScanning, List.mem_map] at he
    obtain ⟨p, _, hp⟩ := he
    subst hp
    rfl
  · intro dial2 hsame
    unfold checkPortScanning
    refine congrArg₂ Prod.mk ?_ ?_
    · exact List.map_congr_left (fun p _ => by rw [hsame])
    · rw [List.filter_congr (fun p _ => by rw [hsame])]

/-- Witness for C7: a dial behaviour failing with refusal on every port
scans identically to one failing with timeout on every port, and both
report every port closed/filtered. -/
theorem port_scan_classification_witness :
    checkPortScanning (fun _ _ => .error .refused) =
      checkPortScanning (fun _ _ => .error .timeout) ∧
    (checkPortScanning (fun _ _ => .error .refused)).1.map (fun e => e.isOpen) =
      [false, false, false, false] := by
  constructor
  · exact (port_scan_classification (fun _ _ => .error .refused)).2.2.2.2
      (fun _ _ => .error .timeout) (fun _ _ => rfl)
  · decide

/-- C3: a step whose completion marker is already set performs none of
its checks or actions when invoked again: RunPreflightChecks and
RunDirectorySetup both return the unchanged world (markers,
configuration and effect log all untouched, whatever the would-be check
outcomes or step body), report the step as already complete, and return
success.  (The marker primitives are modelled from the spec, as their
implementation file is not among the sources.) -/
theorem marker_skip_is_noop (cr : CheckResults) (openFail : Bool)
    (w w2 : StepWorld) (body : StepWorld → StepWorld × Option Str)
    (h1 : Markers.IsComplete w.markers preflightCompletionMarker = true)
    (h2 : Markers.IsComplete w2.markers directoryCompletionMarker = true) :
    RunPreflightChecks cr openFail w =
      (w, [msgAlreadyComplete, msgRemoveMarker], none) ∧
    RunDirectorySetup body w2 =
      (w2, [msgAlreadyComplete, msgRemoveMarker], none) := by
  constructor
  · simp [RunPreflightChecks, h1]
  · have hmem : directoryCompletionMarker ∈ w2.markers := by
      simpa [Markers.IsComplete] using h2
    simp [RunDirectorySetup, Markers.ensureCanonicalMarker, hmem]

/-- Witness for C3 at a concrete world holding both completion
markers. -/
theorem marker_skip_is_noop_witness :
    RunPreflightChecks
      { rpmOstree := none
        requiredPackages := none
        containerRuntime := none
        sudoAccess := none
        networkConnectivity := none
        nfsServer := none } false
      { markers := [preflightCompletionMarker]
        cfg := Config.new none
        effects := [] } =
      ({ markers := [preflightCompletionMarker]
         cfg := Config.new none
         effects := [] }, [msgAlreadyComplete, msgRemoveMarker], none) ∧
    RunDirectorySetup (fun w => (w, none))
      { markers := [directoryCompletionMarker]
        cfg := Config.new none
        effects := [] } =
      ({ markers := [directoryCompletionMarker]
         cfg := Config.new none
         effects := [] }, [msgAlreadyComplete, msgRemoveMarker], none) :=
  marker_skip_is_noop
    { rpmOstree := none
      requiredPackages := none
      containerRuntime := none
      sudoAccess := none
      networkConnectivity := none
      nfsServer := none } false
    { markers := [preflightCompletionMarker]
      cfg := Config.new none
      effects := [] }
    { markers := [directoryCompletionMarker]
      cfg := Config.new none
      effects := [] }
    (fun w => (w, none)) (by decide) (by decide)

/-- C9: ensureCanonicalMarker returns true when the canonical marker
exists; otherwise creates the canonical marker and returns true when the
legacy marker exists; otherwise returns false.  A second call returns
the same result and changes nothing (so no marker is duplicated and no
error condition arises), and no call ever removes an existing marker.
(Modelled from the spec, as the implementation file is not among the
sources.) -/
theorem ensure_canonical_marker_idempotent (ms : List Str) (c l : Str) :
    (c ∈ ms → Markers.ensureCanonicalMarker ms c l = (ms, true)) ∧
    (c ∉ ms → l ∈ ms → Markers.ensureCanonicalMarker ms c l = (c :: ms, true)) ∧
    (c ∉ ms → l ∉ ms → Markers.ensureCanonicalMarker ms c l = (ms, false)) ∧
    (Markers.ensureCanonicalMarker (Markers.ensureCanonicalMarker ms c l).1 c l =
      Markers.ensureCanonicalMarker ms c l) ∧
    (∀ x ∈ ms, x ∈ (Markers.ensureCanonicalMarker ms c l).1) := by
  by_cases hc : c ∈ ms
  · refine ⟨fun _ => by simp [Markers.ensureCanonicalMarker, hc], ?_, ?_, ?_, ?_⟩
    · intro h; exact absurd hc h
    · intro h; exact absurd hc h
    · simp [Markers.ensureCanonicalMarker, hc]
    · simp [Markers.ensureCanonicalMarker, hc]
  · by_cases hl : l ∈ ms
    · refine ⟨fun h => absurd h hc, ?_, ?_, ?_, ?_⟩
      · intro _ _
        simp [Markers.ensureCanonicalMarker, hc, hl, Markers.MarkComplete]
      · intro _ h; exact absurd hl h
      · simp [Markers.ensureCanonicalMarker, hc, hl, Markers.MarkComplete]
      · intro x hx
        simp [Markers.ensureCanonicalMarker, hc, hl, Markers.MarkComplete]
        right; exact hx
    · refine ⟨fun h => absurd h hc, ?_, ?_, ?_, ?_⟩
      · intro _ h; exact absurd h hl
      · intro _ _
        simp [Markers.ensureCanonicalMarker, hc, hl]
      · simp [Markers.ensureCanonicalMarker, hc, hl]
      · intro x hx
        simpa [Markers.ensureCanonicalMarker, hc, hl] using hx

/-- Witness for C9 at concrete marker sets covering the three cases. -/
theorem ensure_canonical_marker_idempotent_witness :
    Markers.ensureCanonicalMarker [directoryCompletionMarker]
      directoryCompletionMarker legacyDirectoryMarker =
      ([directoryCompletionMarker], true) ∧
    Markers.ensureCanonicalMarker [legacyDirectoryMarker]
      directoryCompletionMarker legacyDirectoryMarker =
      (directoryCompletionMarker :: [legacyDirectoryMarker], true) ∧
    Markers.ensureCanonicalMarker []
      directoryCompletionMarker legacyDirectoryMarker = ([], false) := by
  refine ⟨?_, ?_, ?_⟩
  · exact (ensure_canonical_marker_idempotent [directoryCompletionMarker]
      directoryCompletionMarker legacyDirectoryMarker).1 (by decide)
  · exact (ensure_canonical_marker_idempotent [legacyDirectoryMarker]
      directoryCompletionMarker legacyDirectoryMarker).2.1 (by decide) (by decide)
  · exact (ensure_canonical_marker_idempotent []
      directoryCompletionMarker legacyDirectoryMarker).2.2.1 (by decide) (by decide)

/-- With a working disk, the implicit load never fails: a missing file
is treated as an empty store. -/
theorem ensureLoaded_ok (c : Config) : (Config.ensureLoaded false c).2 = none := by
  unfold Config.ensureLoaded Config.Load
  by_cases h : c.loaded
  · simp [h]
  · cases hf : c.file <;> simp [h, hf]

/-- C8: Config.Get fails exactly when the key is absent after the
implicit load, and then with the notFound error; Config.GetOrDefault
never fails — it returns the stored value when the key is present after
the implicit load, the default when it is absent, and the default when
the implicit load itself fails. -/
theorem get_notfound_getordefault_total (c : Config) (k d cont : Str) :
    ((Config.Get false k c).2 = .error .notFound ↔
      lookupKV (Config.ensureLoaded false c).1.data k = none) ∧
    (∀ v, (Config.Get false k c).2 = .ok v ↔
      lookupKV (Config.ensureLoaded false c).1.data k = some v) ∧
    (∀ v, lookupKV (Config.ensureLoaded false c).1.data k = some v →
      (Config.GetOrDefault false k d c).2 = v) ∧
    (lookupKV (Config.ensureLoaded false c).1.data k = none →
      (Config.GetOrDefault false k d c).2 = d) ∧
    (c.loaded = false → c.file = some cont →
      (Config.GetOrDefault true k d c).2 = d) := by
  have hok := ensureLoaded_ok c
  rcases he : Config.ensureLoaded false c with ⟨c', e⟩
  rw [he] at hok
  simp only at hok
  subst hok
  refine ⟨?_, ?_, ?_, ?_, ?_⟩
  · rw [Config.Get, he]
    cases hl : lookupKV c'.data k <;> simp [hl]
  · intro v
    rw [Config.Get, he]
    cases hl : lookupKV c'.data k <;> simp [hl]
  · intro v hv
    rw [Config.GetOrDefault, he]
    simp [hv]
  · intro hv
    rw [Config.GetOrDefault, he]
    simp [hv]
  · intro hld hf
    rw [Config.GetOrDefault]
    unfold Config.ensureLoaded Config.Load
    simp [hld, hf]

/-- Witness for C8 at the concrete store of the spec scenario: a file
holding PUID=1001, a present key, an absent key, and a store whose load
fails. -/
theorem get_notfound_getordefault_total_witness :
    (Config.Get false "PUID".toList
      (Config.new (some "PUID=1001".toList))).2 = .ok "1001".toList ∧
    (Config.Get false "MISSING".toList
      (Config.new (some "PUID=1001".toList))).2 = .error .notFound ∧
    (Config.GetOrDefault false "PUID".toList "0".toList
      (Config.new (some "PUID=1001".toList))).2 = "1001".toList ∧
    (Config.GetOrDefault false "MISSING".toList "999".toList
      (Config.new (some "PUID=1001".toList))).2 = "999".toList ∧
    (Config.GetOrDefault true "PUID".toList "0".toList
      (Config.new (some "PUID=1001".toList))).2 = "0".toList := by
  refine ⟨?_, ?_, ?_, ?_, ?_⟩
  · exact ((get_notfound_getordefault_total (Config.new (some "PUID=1001".toList))
      "PUID".toList "0".toList []).2.1 "1001".toList).mpr (by decide)
  · exact (get_notfound_getordefault_total (Config.new (some "PUID=1001".toList))
      "MISSING".toList "999".toList []).1.mpr (by decide)
  · exact (get_notfound_getordefault_total (Config.new (some "PUID=1001".toList))
      "PUID".toList "0".toList []).2.2.1 "1001".toList (by decide)
  · exact (get_notfound_getordefault_total (Config.new (some "PUID=1001".toList))
      "MISSING".toList "999".toList []).2.2.2.1 (by decide)
  · exact (get_notfound_getordefault_total (Config.new (some "PUID=1001".toList))
      "PUID".toList "0".toList "PUID=1001".toList).2.2.2.2 rfl rfl

/-- Dropping leading whitespace from a string with no leading whitespace
changes nothing. -/
theorem dropWhile_of_headNoSpace (l : Str) (h : headNoSpace l = true) :
    l.dropWhile isSpace = l := by
  cases l with
  | nil => rfl
  | cons c r =>
    have hc : isSpace c = false := by
      simpa [headNoSpace] using h
    simp [List.dropWhile_cons, hc]

/-- Trimming a string with no leading and no trailing whitespace changes
nothing. -/
theorem trim_eq_self (l : Str) (h1 : headNoSpace l = true)
    (h2 : headNoSpace l.reverse = true) : trim l = l := by
  unfold trim
  rw [dropWhile_of_headNoSpace l h1, dropWhile_of_headNoSpace l.reverse h2,
    List.reverse_reverse]

/-- A trim-stable string is unchanged by trim. -/
theorem trimStable_trim (l : Str) (h : trimStable l = true) : trim l = l := by
  have h' := h
  unfold trimStable at h'
  rw [Bool.and_eq_true] at h'
  exact trim_eq_self l h'.1 h'.2

/-- splitN2 on a string without the separator returns the whole string
and no second part. -/
theorem splitN2_no_eq (l : Str) (h : hasChar l '=' = false) :
    splitN2 l = (l, none) := by
  induction l with
  | nil => rfl
  | cons c r ih =>
    have hc : (c = '=') = False := by
      simp only [hasChar, List.any_cons, Bool.or_eq_false_iff] at h
      simpa using h.1
    have hr : hasChar r '=' = false := by
      simp only [hasChar, List.any_cons, Bool.or_eq_false_iff] at h
      exact h.2
    simp [splitN2, hc, ih hr]

/-- splitN2 splits at the first separator: with no separator in the
first part, the parts before and after the first occurrence are returned
even when the second part contains further separators. -/
theorem splitN2_append (k v : Str) (h : hasChar k '=' = false) :
    splitN2 (k ++ '=' :: v) = (k, some v) := by
  induction k with
  | nil => simp [splitN2]
  | cons c r ih =>
    have hc : (c = '=') = False := by
      simp only [hasChar, List.any_cons, Bool.or_eq_false_iff] at h
      simpa using h.1
    have hr : hasChar r '=' = false := by
      simp only [hasChar, List.any_cons, Bool.or_eq_false_iff] at h
      exact h.2
    simp [splitN2, hc, ih hr]

/-- C10: a non-blank, non-comment line without an equals sign is
silently skipped by the loader — no entry is created and the (total)
line processing continues — and a line whose trimmed form is
KEY=value is split only at the first equals sign, storing the key and
the value with their surrounding whitespace trimmed, so the value may
itself contain further equals signs. -/
theorem load_line_semantics (m : List (Str × Str)) (raw k v : Str) :
    (trim raw ≠ [] → startsWithHash (trim raw) = false →
      hasChar (trim raw) '=' = false → processLine m raw = m) ∧
    (trim raw = k ++ '=' :: v → hasChar k '=' = false →
      startsWithHash (k ++ '=' :: v) = false →
      processLine m raw = setKV m (trim k) (trim v)) := by
  constructor
  · intro hnb hnc hne
    unfold processLine
    rw [if_neg hnb, if_neg (by simp [hnc]), splitN2_no_eq (trim raw) hne]
  · intro htrim hk hnc
    unfold processLine
    have hnb : trim raw ≠ [] := by
      rw [htrim]
      cases k <;> simp
    rw [if_neg hnb, htrim, if_neg (by simp [hnc]), splitN2_append k v hk]

/-- Witness for C10: the line "  skip me  " creates no entry, and the
line "  TZ = Europe/London=x " stores key TZ and value Europe/London=x,
split at the first equals sign with both parts trimmed. -/
theorem load_line_semantics_witness :
    processLine [] "  skip me  ".toList = [] ∧
    processLine [] "  TZ = Europe/London=x ".toList =
      setKV [] "TZ".toList "Europe/London=x".toList := by
  constructor
  · exact (load_line_semantics [] "  skip me  ".toList [] []).1
      (by decide) (by decide) (by decide)
  · have h := (load_line_semantics [] "  TZ = Europe/London=x ".toList
      "TZ ".toList " Europe/London=x".toList).2 (by decide) (by decide) (by decide)
    rw [h]
    decide

/-- Splitting at newlines peels off a newline-free first line. -/
theorem splitLines_append (a rest : Str) (h : noNL a = true) :
    splitLines (a ++ '\n' :: rest) = a :: splitLines rest := by
  induction a with
  | nil => simp [splitLines]
  | cons c r ih =>
    have hc : (c = '\n') = False := by
      simp only [noNL, hasChar, List.any_cons, Bool.or_eq_true_iff,
        Bool.not_eq_true', Bool.or_eq_false_iff] at h
      simpa using h.1
    have hr : noNL r = true := by
      simp only [noNL, hasChar, List.any_cons, Bool.not_eq_true',
        Bool.or_eq_false_iff] at h
      simp [noNL, hasChar, h.2]
    rw [List.cons_append]
    have h1 : splitLines (c :: (r ++ '\n' :: rest)) =
        (if c = '\n' then [] :: splitLines (r ++ '\n' :: rest)
         else match splitLines (r ++ '\n' :: rest) with
              | [] => [[c]]
              | l :: ls => (c :: l) :: ls) := rfl
    rw [h1, if_neg (by simp [hc]), ih hr]

/-- The rendered pair block splits into one line per pair plus a final
empty line from the trailing newline. -/
theorem splitLines_renderPairs (l : List (Str × Str))
    (h : ∀ p ∈ l, noNL (p.1 ++ '=' :: p.2) = true) :
    splitLines (renderPairs l) =
      l.map (fun p => p.1 ++ '=' :: p.2) ++ [[]] := by
  induction l with
  | nil => rfl
  | cons p rest ih =>
    obtain ⟨k, v⟩ := p
    have hline : renderPairs ((k, v) :: rest) =
        (k ++ '=' :: v) ++ '\n' :: renderPairs rest := by
      simp [renderPairs]
    rw [hline, splitLines_append _ _ (h (k, v) (by simp)),
      ih (fun q hq => h q (by simp [hq]))]
    simp

/-- Dropping a prefix from a list ending in a kept element leaves a list
ending in that element. -/
theorem dropWhile_append_last (p : Char → Bool) (a : Str) (c : Char)
    (h : p c = false) : ∃ s, List.dropWhile p (a ++ [c]) = s ++ [c] := by
  induction a with
  | nil => exact ⟨[], by simp [List.dropWhile, h]⟩
  | cons x xs ih =>
    by_cases hx : p x = true
    · obtain ⟨s, hs⟩ := ih
      exact ⟨s, by simp [List.dropWhile_cons, hx, hs]⟩
    · exact ⟨x :: xs, by simp [List.dropWhile_cons, hx]⟩

/-- A comment line is skipped whatever follows the leading hash. -/
theorem processLine_hash (m : List (Str × Str)) (r : Str) :
    processLine m ('#' :: r) = m := by
  have hd : ('#' :: r).dropWhile isSpace = '#' :: r :=
    dropWhile_of_headNoSpace _ rfl
  obtain ⟨s, hs⟩ := dropWhile_append_last isSpace r.reverse '#' (by decide)
  have htrim : trim ('#' :: r) = '#' :: s.reverse := by
    unfold trim
    rw [hd]
    have : ('#' :: r).reverse = r.reverse ++ ['#'] := by simp
    rw [this, hs]
    simp
  unfold processLine
  rw [htrim, if_neg (by simp), if_pos (by rfl)]

/-- A blank line is skipped. -/
theorem processLine_blank (m : List (Str × Str)) : processLine m [] = m := rfl

/-- A well-formed KEY=value line is its own trimmed form. -/
theorem trim_pair_line (k v : Str) (hk : trimStable k = true)
    (hv : trimStable v = true) : trim (k ++ '=' :: v) = k ++ '=' :: v := by
  apply trim_eq_self
  · cases k with
    | nil => rfl
    | cons c r =>
      have := (Bool.and_eq_true _ _).mp hk
      simpa [headNoSpace] using this.1
  · have hrev : (k ++ '=' :: v).reverse = v.reverse ++ '=' :: k.reverse := by
      simp
    rw [hrev]
    cases hvr : v.reverse with
    | nil => rfl
    | cons d r =>
      have := (Bool.and_eq_true _ _).mp hv
      have hd := this.2
      rw [hvr] at hd
      simpa [headNoSpace] using hd

/-- A well-formed KEY=value line is parsed back to exactly its map
update. -/
theorem processLine_pair (m : List (Str × Str)) (k v : Str)
    (hk : wfKey k = true) (hv : wfVal v = true) :
    processLine m (k ++ '=' :: v) = setKV m k v := by
  unfold wfKey at hk
  unfold wfVal at hv
  rw [Bool.and_eq_true, Bool.and_eq_true, Bool.and_eq_true] at hk
  rw [Bool.and_eq_true] at hv
  have hkts : trimStable k = true := hk.1.1.1
  have hkeq : hasChar k '=' = false := by
    have := hk.1.2
    simpa using this
  have hkh : startsWithHash k = false := by
    have := hk.2
    simpa using this
  have hvts : trimStable v = true := hv.1
  have hline : trim (k ++ '=' :: v) = k ++ '=' :: v :=
    trim_pair_line k v hkts hvts
  have hnb : k ++ '=' :: v ≠ [] := by cases k <;> simp
  have hnc : startsWithHash (k ++ '=' :: v) = false := by
    cases k with
    | nil => rfl
    | cons c r =>
      simp only [startsWithHash] at hkh ⊢
      simpa using hkh
  unfold processLine
  rw [hline, if_neg hnb, if_neg (by simp [hnc]), splitN2_append k v hkeq]
  show setKV m (trim k) (trim v) = setKV m k v
  rw [trimStable_trim k hkts, trimStable_trim v hvts]

/-- Looking up the key just set yields the value just set. -/
theorem lookup_setKV_self (m : List (Str × Str)) (k v : Str) :
    lookupKV (setKV m k v) k = some v := by
  simp [setKV, lookupKV]

/-- Filtering out another key does not change a lookup. -/
theorem lookup_filter_ne (m : List (Str × Str)) (k k' : Str) (h : k ≠ k') :
    lookupKV (m.filter (fun p => decide (p.1 ≠ k))) k' = lookupKV m k' := by
  induction m with
  | nil => rfl
  | cons p rest ih =>
    obtain ⟨a, b⟩ := p
    by_cases ha : a = k
    · subst ha
      rw [List.filter_cons_of_neg (by simp)]
      rw [ih]
      simp [lookupKV, h]
    · rw [List.filter_cons_of_pos (by simpa using ha)]
      simp only [ne_eq, decide_not] at ih
      by_cases ha' : a = k'
      · subst ha'
        simp [lookupKV]
      · simp [lookupKV, ha', ih]

/-- Setting one key does not change the lookup of another. -/
theorem lookup_setKV_ne (m : List (Str × Str)) (k v k' : Str) (h : k ≠ k') :
    lookupKV (setKV m k v) k' = lookupKV m k' := by
  simp only [setKV, lookupKV, if_neg h]
  exact lookup_filter_ne m k k' h

/-- Parsing the lines of pairs none of which carries the key leaves the
lookup of that key unchanged. -/
theorem foldl_processLine_other_keys (L : List (Str × Str)) (m : List (Str × Str))
    (k : Str) (hwf : ∀ p ∈ L, wfKey p.1 = true ∧ wfVal p.2 = true)
    (hk : ∀ p ∈ L, p.1 ≠ k) :
    lookupKV (List.foldl processLine m (L.map (fun p => p.1 ++ '=' :: p.2))) k =
      lookupKV m k := by
  induction L generalizing m with
  | nil => rfl
  | cons p rest ih =>
    obtain ⟨a, b⟩ := p
    have hwp := hwf (a, b) (by simp)
    rw [List.map_cons, List.foldl_cons, processLine_pair m a b hwp.1 hwp.2,
      ih _ (fun q hq => hwf q (by simp [hq])) (fun q hq => hk q (by simp [hq]))]
    exact lookup_setKV_ne m a b k (hk (a, b) (by simp))

/-- Parsing the lines of pairs exactly one of which carries the key
yields the value of that pair for the key. -/
theorem foldl_processLine_key (L : List (Str × Str)) (k v : Str)
    (hwf : ∀ p ∈ L, wfKey p.1 = true ∧ wfVal p.2 = true)
    (hfilter : L.filter (fun p => decide (p.1 = k)) = [(k, v)]) :
    ∀ m, lookupKV (List.foldl processLine m (L.map (fun p => p.1 ++ '=' :: p.2))) k =
      some v := by
  induction L with
  | nil => intro m; simp at hfilter
  | cons p rest ih =>
    intro m
    obtain ⟨a, b⟩ := p
    have hwp := hwf (a, b) (by simp)
    rw [List.map_cons, List.foldl_cons, processLine_pair m a b hwp.1 hwp.2]
    by_cases ha : a = k
    · subst ha
      rw [List.filter_cons_of_pos (by simp)] at hfilter
      have hb : b = v := by
        have := List.head_eq_of_cons_eq hfilter
        exact (Prod.mk.injEq _ _ _ _).mp this |>.2
      have hrest : rest.filter (fun p => decide (p.1 = a)) = [] :=
        List.tail_eq_of_cons_eq hfilter
      have hnone : ∀ q ∈ rest, q.1 ≠ a := by
        intro q hq
        have := List.filter_eq_nil_iff.mp hrest q hq
        simpa using this
      rw [foldl_processLine_other_keys rest _ a
        (fun q hq => hwf q (by simp [hq])) hnone]
      rw [hb]
      exact lookup_setKV_self m a v
    · rw [List.filter_cons_of_neg (by simpa using ha)] at hfilter
      exact ih (fun q hq => hwf q (by simp [hq])) hfilter (setKV m a b)

/-- Newline-freedom distributes over append. -/
theorem noNL_append (a b : Str) : noNL (a ++ b) = (noNL a && noNL b) := by
  simp [noNL, hasChar, List.any_append]

/-- Newline-freedom of a cons. -/
theorem noNL_cons (c : Char) (l : Str) :
    noNL (c :: l) = (!(decide (c = '\n')) && noNL l) := by
  simp [noNL, hasChar]

/-- Any line starting with the comment character is skipped. -/
theorem processLine_hash_head (m : List (Str × Str)) (l : Str)
    (h : startsWithHash l = true) : processLine m l = m := by
  cases l with
  | nil => simp [startsWithHash] at h
  | cons c r =>
    have hc : c = '#' := by simpa [startsWithHash] using h
    subst hc
    exact processLine_hash m r

/-- Loading back the file written for a data map yields, for a key whose
unique well-formed entry is (k, v), exactly the value v. -/
theorem parse_render_lookup (ts : Str) (L : List (Str × Str)) (k v : Str)
    (hts : noNL ts = true)
    (hwf : ∀ p ∈ L, wfKey p.1 = true ∧ wfVal p.2 = true)
    (hfilter : L.filter (fun p => decide (p.1 = k)) = [(k, v)]) :
    lookupKV (loadLinesInto [] (renderConfig ts L)) k = some v := by
  have hnlpair : ∀ p ∈ L, noNL (p.1 ++ '=' :: p.2) = true := by
    intro p hp
    obtain ⟨hk, hv⟩ := hwf p hp
    unfold wfKey at hk
    unfold wfVal at hv
    rw [Bool.and_eq_true, Bool.and_eq_true, Bool.and_eq_true] at hk
    rw [Bool.and_eq_true] at hv
    rw [noNL_append, noNL_cons, hk.1.1.2, hv.2]
    decide
  have hsplit : splitLines (renderConfig ts L) =
      headerLine1 :: (headerGen ++ ts) :: [] ::
        (L.map (fun p => p.1 ++ '=' :: p.2) ++ [[]]) := by
    unfold renderConfig
    rw [splitLines_append headerLine1 _ (by decide)]
    congr 1
    rw [← List.append_assoc]
    rw [splitLines_append (headerGen ++ ts) _
      (by rw [noNL_append, hts]; decide)]
    congr 1
    have h3 : splitLines ('\n' :: renderPairs L) =
        [] :: splitLines (renderPairs L) :=
      splitLines_append [] (renderPairs L) rfl
    rw [h3]
    congr 1
    exact splitLines_renderPairs L hnlpair
  unfold loadLinesInto
  rw [hsplit]
  rw [List.foldl_cons, List.foldl_cons, List.foldl_cons,
    processLine_hash_head [] headerLine1 rfl]
  rw [processLine_hash_head [] (headerGen ++ ts) rfl, processLine_blank]
  rw [List.foldl_append]
  have hlast : ∀ X : List (Str × Str),
      List.foldl processLine X [[]] = X := by
    intro X
    rw [List.foldl_cons, processLine_blank, List.foldl_nil]
  rw [hlast]
  exact foldl_processLine_key L k v hwf hfilter []

/-- On an already-loaded store, Get is a pure map lookup. -/
theorem Get_of_loaded (c : Config) (hl : c.loaded = true) (k : Str) :
    (Config.Get false k c).2 =
      match lookupKV c.data k with
      | none => Except.error CfgErr.notFound
      | some v => Except.ok v := by
  unfold Config.Get Config.ensureLoaded
  rw [if_pos hl]
  cases hq : lookupKV c.data k <;> simp [hq]

/-- On a fresh store over an existing file, Get is a lookup in the
parsed file content. -/
theorem Get_new_some (content k : Str) :
    (Config.Get false k (Config.new (some content))).2 =
      match lookupKV (loadLinesInto [] content) k with
      | none => Except.error CfgErr.notFound
      | some v => Except.ok v := by
  have h0 : Config.ensureLoaded false (Config.new (some content)) =
      ({ file := some content, data := loadLinesInto [] content,
         loaded := true }, none) := rfl
  unfold Config.Get
  rw [h0]
  cases hq : lookupKV (loadLinesInto [] content) k <;> simp [hq]

/-- The entry for the key just set is the unique entry carrying that
key. -/
theorem filter_setKV_self (m : List (Str × Str)) (k v : Str) :
    (setKV m k v).filter (fun p => decide (p.1 = k)) = [(k, v)] := by
  unfold setKV
  rw [List.filter_cons_of_pos (by simp)]
  rw [List.filter_filter]
  have : ∀ a ∈ m, ¬(decide (a.1 = k) && decide (a.1 ≠ k)) = true := by
    intro a _
    by_cases h : a.1 = k <;> simp [h]
  rw [List.filter_eq_nil_iff.mpr this]

/-- After the mutate-then-Save tail runs on a loaded store, the key just
set reads back from memory — for every key and value, whether or not
the persist itself succeeded, since the in-memory map is updated before
the save. -/
theorem setAndSave_get_mem (c' : Config) (ts k v : Str) (saveFail : Bool)
    (hl : c'.loaded = true) :
    (Config.Get false k (Config.setAndSave saveFail ts k v c').1).2 = .ok v := by
  cases saveFail
  · rw [Get_of_loaded ((Config.setAndSave false ts k v c').1)
      (show (Config.setAndSave false ts k v c').1.loaded = true from hl) k]
    rw [show (Config.setAndSave false ts k v c').1.data = setKV c'.data k v
      from rfl]
    rw [lookup_setKV_self]
  · rw [Get_of_loaded ((Config.setAndSave true ts k v c').1)
      (show (Config.setAndSave true ts k v c').1.loaded = true from hl) k]
    rw [show (Config.setAndSave true ts k v c').1.data = setKV c'.data k v
      from rfl]
    rw [lookup_setKV_self]

/-- After a successful persist of a well-formed map, the key just set
also reads back through a fresh store over the written file. -/
theorem setAndSave_get_fresh (c' : Config) (ts k v : Str) (saveFail : Bool)
    (hts : noNL ts = true)
    (hwf : ∀ p ∈ (Config.setAndSave saveFail ts k v c').1.data,
      wfKey p.1 = true ∧ wfVal p.2 = true)
    (hok : (Config.setAndSave saveFail ts k v c').2 = none) :
    (Config.Get false k
      (Config.new (Config.setAndSave saveFail ts k v c').1.file)).2 = .ok v := by
  have hsf : saveFail = false := by
    cases saveFail
    · rfl
    · simp [Config.setAndSave] at hok
  subst hsf
  have hwf' : ∀ p ∈ setKV c'.data k v, wfKey p.1 = true ∧ wfVal p.2 = true :=
    fun p hp => hwf p hp
  rw [show (Config.setAndSave false ts k v c').1.file =
    some (renderConfig ts (setKV c'.data k v)) from rfl]
  rw [Get_new_some]
  rw [parse_render_lookup ts (setKV c'.data k v) k v hts hwf'
    (filter_setKV_self c'.data k v)]

/-- C2 (amended): for every key k and value v, after Set(k, v) returns
without error, Get(k) on the same store instance returns v with no
explicit reload — unconditionally; and provided every entry of the
persisted map is well-formed for the line format (no surrounding
whitespace, no newline, keys without an equals sign and not starting
with the comment character — the format supports no quoting or escaping)
and the header timestamp carries no newline, a fresh store constructed
over the same file also returns v from Get(k). -/
theorem set_then_get_roundTrip (c : Config) (ts k v : Str)
    (openFail saveFail : Bool)
    (hok : (Config.Set openFail saveFail ts k v c).2 = none) :
    (Config.Get false k (Config.Set openFail saveFail ts k v c).1).2 = .ok v ∧
    (noNL ts = true →
      (∀ p ∈ (Config.Set openFail saveFail ts k v c).1.data,
        wfKey p.1 = true ∧ wfVal p.2 = true) →
      (Config.Get false k
        (Config.new (Config.Set openFail saveFail ts k v c).1.file)).2
        = .ok v) := by
  unfold Config.Set at hok ⊢
  by_cases hl : c.loaded = true
  · rw [if_pos hl] at hok ⊢
    exact ⟨setAndSave_get_mem c ts k v saveFail hl,
      fun hts hwf => setAndSave_get_fresh c ts k v saveFail hts hwf hok⟩
  · rw [Bool.not_eq_true] at hl
    rw [if_neg (by simp [hl])] at hok ⊢
    revert hok
    rcases hload : Config.Load openFail c with ⟨c', e⟩
    intro hok
    cases e with
    | some err => simp at hok
    | none =>
      have hl' : c'.loaded = true := by
        unfold Config.Load at hload
        cases hf : c.file with
        | none =>
          rw [hf] at hload
          have := (Prod.mk.injEq _ _ _ _).mp hload
          rw [← this.1]
        | some cont =>
          rw [hf] at hload
          cases ho : openFail with
          | true =>
            rw [ho] at hload
            simp at hload
          | false =>
            rw [ho] at hload
            simp only [Bool.false_eq_true, if_false] at hload
            have := (Prod.mk.injEq _ _ _ _).mp hload
            rw [← this.1]
      exact ⟨setAndSave_get_mem c' ts k v saveFail hl',
        fun hts hwf => setAndSave_get_fresh c' ts k v saveFail hts hwf hok⟩

/-- Witness for C2 at the spec scenario: Set TZ=Europe/London on an
empty store, then read it back in memory and through a fresh store. -/
theorem set_then_get_roundTrip_witness :
    (Config.Get false "TZ".toList
      (Config.Set false false [] "TZ".toList "Europe/London".toList
        (Config.new none)).1).2 = .ok "Europe/London".toList ∧
    (Config.Get false "TZ".toList
      (Config.new (Config.Set false false [] "TZ".toList "Europe/London".toList
        (Config.new none)).1.file)).2 = .ok "Europe/London".toList := by
  have h := set_then_get_roundTrip (Config.new none) [] "TZ".toList
    "Europe/London".toList false false (by decide)
  exact ⟨h.1, h.2 (by decide) (by decide)⟩

/-- Counterexample to C2 as stated: for the value "A\nB", which contains
a newline, Set succeeds and the in-memory Get still returns it, but a
fresh store over the same file returns "A" — the newline ended the line
on disk, so the write-then-load round trip fails for this key/value
pair. -/
theorem set_then_get_roundTrip_counterexample :
    (Config.Set false false [] "K".toList "A\nB".toList (Config.new none)).2
      = none ∧
    (Config.Get false "K".toList
      (Config.Set false false [] "K".toList "A\nB".toList
        (Config.new none)).1).2 = .ok "A\nB".toList ∧
    (Config.Get false "K".toList
      (Config.new (Config.Set false false [] "K".toList "A\nB".toList
        (Config.new none)).1.file)).2 ≠ .ok "A\nB".toList ∧
    (Config.Get false "K".toList
      (Config.new (Config.Set false false [] "K".toList "A\nB".toList
        (Config.new none)).1.file)).2 = .ok "A".toList := by decide
